import Mathlib

/-!
Verification of the live-search/autocomplete widget.

The development shallow-embeds the stateful core of the repository:

* `searchReducer`, `initialState` — the reducer of `useSearch`
  (src/api/searchApi.js, hook section).
* `Machine`, `search`, `clear`, `timerFire`, `resolveSuccess`,
  `resolveError` — the `useSearch` hook: the debounce timer is the
  `timer` slot (a `setTimeout` handle holding the trimmed query the
  callback captured), and `inflight` lists the queries of fetches whose
  promise is still pending.  The JS runtime is single-threaded and
  event-driven, so the hook's behaviour is exactly a fold of these
  events; timer expiry and promise resolution are modelled as explicit
  events.  Note the source keeps no generation token: a resolution
  dispatches unconditionally.
* `AppState`, `handleChange`, `handleClear`, `handleArrowDown`,
  `handleSelect`, `handleClickOutside`, `showDropdown`,
  `listArrowDown`, `listArrowUp` — the App component and the keyboard
  handlers of SearchInput/SearchResults (src/App.jsx,
  src/components/SearchResults.jsx).
* `stepApp` / `runApp` — the event loop over the whole widget; list
  navigation events are guarded by `listRendered`, the condition under
  which SearchResults (and hence its key handlers) is mounted.

Strings are modelled as `List Char`; `trimStr` is JS
`String.prototype.trim` restricted to the common whitespace characters.
-/

namespace LiveSearch

/-- Characters removed at both ends by trimming. -/
def isWs (c : Char) : Bool :=
  c = ' ' || c = '\t' || c = '\n' || c = '\r'

/-- Strings of the JS source, modelled as lists of characters. -/
abbrev Str := List Char

/-- `rawQuery.trim()`: drop whitespace from both ends. -/
def trimStr (s : Str) : Str :=
  ((s.dropWhile isWs).reverse.dropWhile isWs).reverse

/-- The `status` field of the reducer state. -/
inductive Status where
  | idle
  | loading
  | success
  | error
deriving DecidableEq, BEq

/-- A normalized record produced by searchApi.js. -/
structure Result where
  id : Str
  title : Str
  author : Str
  year : Str
  coverUrl : Option Str
deriving DecidableEq

/-- The reducer state of `useSearch`. -/
structure SearchState where
  status : Status
  query : Str
  results : List Result
  error : Option Str
deriving DecidableEq

/-- `initialState` of searchApi.js. -/
def initialState : SearchState :=
  { status := Status.idle, query := [], results := [], error := none }

/-- The actions dispatched to `searchReducer`. -/
inductive Action where
  | SET_QUERY (payload : Str)
  | FETCH_START
  | FETCH_SUCCESS (payload : List Result)
  | FETCH_ERROR (payload : Str)
  | CLEAR

/-- `searchReducer` of searchApi.js, case for case. -/
def searchReducer (state : SearchState) (action : Action) : SearchState :=
  match action with
  | Action.SET_QUERY payload => { state with query := payload }
  | Action.FETCH_START => { state with status := Status.loading, error := none }
  | Action.FETCH_SUCCESS payload =>
      { state with status := Status.success, results := payload }
  | Action.FETCH_ERROR payload =>
      { state with status := Status.error, results := [], error := some payload }
  | Action.CLEAR => initialState

/-- The observable situation of one `useSearch` instance: the reducer
state, the pending debounce timer (with the trimmed query its callback
captured), and the trimmed queries of fetches whose promise is still
pending.  The source keeps no generation counter, so a resolution is
applied whenever it arrives. -/
structure Machine where
  state : SearchState
  timer : Option Str
  inflight : List Str
deriving DecidableEq

/-- The hook's situation right after mount. -/
def initMachine : Machine :=
  { state := initialState, timer := none, inflight := [] }

/-- `search(rawQuery)` of `useSearch`: dispatch SET_QUERY with the raw
text; if the trimmed text is empty, cancel the timer and dispatch CLEAR;
otherwise cancel the previous timer and schedule a fresh one whose
callback captured the trimmed text. -/
def search (m : Machine) (rawQuery : Str) : Machine :=
  if trimStr rawQuery = [] then
    { m with
      state := searchReducer (searchReducer m.state (Action.SET_QUERY rawQuery))
        Action.CLEAR,
      timer := none }
  else
    { m with
      state := searchReducer m.state (Action.SET_QUERY rawQuery),
      timer := some (trimStr rawQuery) }

/-- `clear()` of `useSearch`: cancel the timer and dispatch CLEAR.  The
source does nothing about a fetch already in flight. -/
def clear (m : Machine) : Machine :=
  { m with state := searchReducer m.state Action.CLEAR, timer := none }

/-- The pending debounce timer expires: its callback dispatches
FETCH_START and awaits `fetchFn(query)`, so the captured query joins the
in-flight fetches. -/
def timerFire (m : Machine) : Machine :=
  match m.timer with
  | none => m
  | some q =>
      { state := searchReducer m.state Action.FETCH_START,
        timer := none,
        inflight := m.inflight ++ [q] }

/-- The in-flight fetch at position `i` resolves successfully with
`payload`; the callback dispatches FETCH_SUCCESS unconditionally. -/
def resolveSuccess (m : Machine) (i : Nat) (payload : List Result) : Machine :=
  if i < m.inflight.length then
    { m with
      state := searchReducer m.state (Action.FETCH_SUCCESS payload),
      inflight := m.inflight.eraseIdx i }
  else m

/-- The in-flight fetch at position `i` rejects with message `msg`; the
callback dispatches FETCH_ERROR unconditionally. -/
def resolveError (m : Machine) (i : Nat) (msg : Str) : Machine :=
  if i < m.inflight.length then
    { m with
      state := searchReducer m.state (Action.FETCH_ERROR msg),
      inflight := m.inflight.eraseIdx i }
  else m

/-- The machine situations reachable from mount through the events the
source can produce. -/
inductive ReachableM : Machine → Prop where
  | init : ReachableM initMachine
  | submit (m : Machine) (raw : Str) :
      ReachableM m → ReachableM (search m raw)
  | clearStep (m : Machine) : ReachableM m → ReachableM (clear m)
  | fire (m : Machine) : ReachableM m → ReachableM (timerFire m)
  | resSuccess (m : Machine) (i : Nat) (p : List Result) :
      ReachableM m → ReachableM (resolveSuccess m i p)
  | resError (m : Machine) (i : Nat) (msg : Str) :
      ReachableM m → ReachableM (resolveError m i msg)

/-- The App component's state: the hook's machine plus `isOpen` and
`activeIndex` (src/App.jsx). -/
structure AppState where
  machine : Machine
  isOpen : Bool
  activeIndex : Int
deriving DecidableEq

/-- The App right after mount. -/
def initApp : AppState :=
  { machine := initMachine, isOpen := false, activeIndex := -1 }

/-- `handleChange(value)`: `search(value); setIsOpen(true);
setActiveIndex(-1)`. -/
def handleChange (a : AppState) (value : Str) : AppState :=
  { machine := search a.machine value, isOpen := true, activeIndex := -1 }

/-- `handleClear()`: `clear(); setIsOpen(false); setActiveIndex(-1)`.
Also what the Escape key reaches, through SearchInput's `onClear` and
SearchResults' `onClose`. -/
def handleClear (a : AppState) : AppState :=
  { machine := clear a.machine, isOpen := false, activeIndex := -1 }

/-- `handleArrowDown()`: jump to index 0 when results is non-empty. -/
def handleArrowDown (a : AppState) : AppState :=
  if 0 < a.machine.state.results.length then { a with activeIndex := 0 } else a

/-- `handleSelect(result)`: `search(result.title); setIsOpen(false);
setActiveIndex(-1)`. -/
def handleSelect (a : AppState) (result : Result) : AppState :=
  { machine := search a.machine result.title,
    isOpen := false, activeIndex := -1 }

/-- The `handleClickOutside` listener: close without touching the
machine. -/
def handleClickOutside (a : AppState) : AppState :=
  { a with isOpen := false, activeIndex := -1 }

/-- `showDropdown = isOpen && query.trim().length > 0` (App.jsx). -/
def showDropdown (a : AppState) : Bool :=
  a.isOpen && decide (0 < (trimStr a.machine.state.query).length)

/-- ArrowDown inside SearchResults:
`setActiveIndex(prev => Math.min(prev + 1, results.length - 1))`. -/
def listArrowDown (a : AppState) : AppState :=
  { a with
    activeIndex :=
      min (a.activeIndex + 1) ((a.machine.state.results.length : Int) - 1) }

/-- ArrowUp inside SearchResults:
`setActiveIndex(prev => Math.max(prev - 1, 0))`. -/
def listArrowUp (a : AppState) : AppState :=
  { a with activeIndex := max (a.activeIndex - 1) 0 }

/-- SearchResults (and so its key handlers) is mounted exactly when the
dropdown shows, status is success and results is non-empty (App.jsx
render tree; SearchResults itself returns null on empty results). -/
def listRendered (a : AppState) : Bool :=
  showDropdown a && (a.machine.state.status == Status.success)
    && decide (0 < a.machine.state.results.length)

/-- Every event the widget can process. -/
inductive AppEvent where
  | change (value : Str)
  | clickClear
  | arrowDownFromInput
  | escapeKey
  | pick (r : Result)
  | clickOutside
  | listDown
  | listUp
  | listEscape
  | timerFires
  | fetchSucceeds (i : Nat) (payload : List Result)
  | fetchFails (i : Nat) (msg : Str)

/-- One step of the widget's event loop.  Events whose DOM handler is
only mounted while the result list renders are guarded by
`listRendered`. -/
def stepApp (a : AppState) : AppEvent → AppState
  | AppEvent.change v => handleChange a v
  | AppEvent.clickClear => handleClear a
  | AppEvent.arrowDownFromInput => handleArrowDown a
  | AppEvent.escapeKey => handleClear a
  | AppEvent.pick r => if listRendered a then handleSelect a r else a
  | AppEvent.clickOutside => handleClickOutside a
  | AppEvent.listDown => if listRendered a then listArrowDown a else a
  | AppEvent.listUp => if listRendered a then listArrowUp a else a
  | AppEvent.listEscape => if listRendered a then handleClear a else a
  | AppEvent.timerFires => { a with machine := timerFire a.machine }
  | AppEvent.fetchSucceeds i p => { a with machine := resolveSuccess a.machine i p }
  | AppEvent.fetchFails i msg => { a with machine := resolveError a.machine i msg }

/-- Run a sequence of events from a given widget state. -/
def runApp (a : AppState) (evs : List AppEvent) : AppState :=
  evs.foldl stepApp a

/-- A concrete normalized record, used by the concrete scenarios. -/
def r1 : Result :=
  { id := ['1'], title := ['T'], author := ['A'], year := ['Y'], coverUrl := none }

/-- A second concrete record. -/
def r2 : Result :=
  { id := ['2'], title := ['U'], author := ['B'], year := ['Z'], coverUrl := none }

/-- A non-empty trimmed submission only records the raw text and
schedules the timer for the trimmed text. -/
theorem search_pos (m : Machine) (raw : Str) (h : trimStr raw ≠ []) :
    search m raw =
      { state := { m.state with query := raw },
        timer := some (trimStr raw),
        inflight := m.inflight } := by
  simp [search, h, searchReducer]

/-- `search` never touches the in-flight fetches. -/
theorem search_inflight (m : Machine) (raw : Str) :
    (search m raw).inflight = m.inflight := by
  unfold search
  split <;> rfl

/-- Folding any burst of submissions issues no fetch. -/
theorem foldl_search_inflight :
    ∀ (raws : List Str) (m : Machine),
      (raws.foldl search m).inflight = m.inflight := by
  intro raws
  induction raws with
  | nil => intro m; rfl
  | cons r t ih => intro m; rw [List.foldl_cons, ih, search_inflight]

/-- Expiry of a pending timer: FETCH_START plus one more in-flight
fetch for the captured query. -/
theorem timerFire_some (m : Machine) (q : Str) (h : m.timer = some q) :
    timerFire m =
      { state := { m.state with status := Status.loading, error := none },
        timer := none,
        inflight := m.inflight ++ [q] } := by
  unfold timerFire
  rw [h]
  rfl

/-- The head surviving `dropWhile` fails the predicate. -/
theorem dropWhile_head_false {α : Type} (p : α → Bool) :
    ∀ (l : List α) (x : α) (xs : List α), l.dropWhile p = x :: xs → p x = false := by
  intro l
  induction l with
  | nil => intro x xs h; simp [List.dropWhile] at h
  | cons a t ih =>
      intro x xs h
      rw [List.dropWhile_cons] at h
      split at h
      · exact ih x xs h
      · next hpa =>
          cases h
          simpa using hpa

/-- A non-empty trimmed string contains a non-whitespace character. -/
theorem trimStr_has_solid (raw : Str) (h : trimStr raw ≠ []) :
    ∃ c ∈ trimStr raw, isWs c = false := by
  unfold trimStr at h ⊢
  cases hB : (raw.dropWhile isWs).reverse.dropWhile isWs with
  | nil => rw [hB] at h; simp at h
  | cons x xs =>
      refine ⟨x, ?_, dropWhile_head_false isWs _ x xs hB⟩
      simp

/-- Submit, let the timer fire (fetch goes out), then clear. -/
def c1trace : List AppEvent :=
  [AppEvent.change ['a'], AppEvent.timerFires, AppEvent.clickClear]

/-- C1: after `clear()` while a fetch is in flight, the machine is at
the cleared baseline, yet the old fetch's later resolution still
mutates state: a success moves it to status success with the stale
results, a failure moves it to status error.  The code has no
generation token, so the claimed no-op property fails. -/
theorem c1_staleResolutionMutates :
    (runApp initApp c1trace).machine.state = initialState ∧
    (stepApp (runApp initApp c1trace)
      (AppEvent.fetchSucceeds 0 [r1])).machine.state.status = Status.success ∧
    (stepApp (runApp initApp c1trace)
      (AppEvent.fetchSucceeds 0 [r1])).machine.state.results = [r1] ∧
    (stepApp (runApp initApp c1trace)
      (AppEvent.fetchFails 0 ['x'])).machine.state.status = Status.error := by
  decide

/-- Search, get one result, search again, let the second timer fire,
then press ArrowDown while the second fetch is loading, and let the
second fetch fail. -/
def c4trace : List AppEvent :=
  [AppEvent.change ['a'], AppEvent.timerFires, AppEvent.fetchSucceeds 0 [r1],
   AppEvent.change ['a', 'b'], AppEvent.timerFires, AppEvent.arrowDownFromInput,
   AppEvent.fetchFails 0 ['b', 'o', 'o', 'm']]

/-- C4: the range invariant on `activeIndex` fails on the code: after
the trace above, results is empty but activeIndex is 0, outside
[-1, results.length - 1].  FETCH_ERROR (and FETCH_SUCCESS) replace the
results array without any reset of activeIndex. -/
theorem c4_rangeInvariantFails :
    (runApp initApp c4trace).machine.state.results = [] ∧
    (runApp initApp c4trace).activeIndex = 0 ∧
    ¬((runApp initApp c4trace).activeIndex ≤
        ((runApp initApp c4trace).machine.state.results.length : Int) - 1) := by
  decide

/-- Search, succeed, search again, let the new timer fire. -/
def c5trace : List AppEvent :=
  [AppEvent.change ['a'], AppEvent.timerFires, AppEvent.fetchSucceeds 0 [r1],
   AppEvent.change ['a', 'b'], AppEvent.timerFires]

/-- C5 counterexample: FETCH_START keeps the previous results, so a
reachable state has status loading with non-empty results, refuting
"results is non-empty only when status = success" as stated. -/
theorem c5_loadingKeepsResults :
    (runApp initApp c5trace).machine.state.status = Status.loading ∧
    (runApp initApp c5trace).machine.state.results ≠ [] := by
  decide

/-- Search, succeed with two results, enter the list and move down to
activeIndex 1. -/
def c3trace : List AppEvent :=
  [AppEvent.change ['H'], AppEvent.timerFires, AppEvent.fetchSucceeds 0 [r1, r2],
   AppEvent.arrowDownFromInput, AppEvent.listDown]

/-- C3 counterexample: Escape is wired to `handleClear`, so from a
state with activeIndex 1 it changes both the query and the results,
refuting "query and results remain unchanged". -/
theorem c3_escapeClearsState :
    (runApp initApp c3trace).activeIndex = 1 ∧
    (stepApp (runApp initApp c3trace) AppEvent.escapeKey).machine.state.query ≠
      (runApp initApp c3trace).machine.state.query ∧
    (stepApp (runApp initApp c3trace) AppEvent.escapeKey).machine.state.results ≠
      (runApp initApp c3trace).machine.state.results := by
  decide

/-- C3 amended: Escape closes the dropdown (isOpen false, activeIndex
-1) and in addition resets the whole search state to its initial
values and cancels any pending timer, because the Escape handler calls
`onClear`, which is `handleClear`. -/
theorem c3_escapeClosesAndClears (a : AppState) :
    (stepApp a AppEvent.escapeKey).isOpen = false ∧
    (stepApp a AppEvent.escapeKey).activeIndex = -1 ∧
    (stepApp a AppEvent.escapeKey).machine.state = initialState ∧
    (stepApp a AppEvent.escapeKey).machine.timer = none :=
  ⟨rfl, rfl, rfl, rfl⟩

/-- C6: a submission whose trimmed text is empty immediately resets the
state to its initial values (status idle, query empty, results empty),
cancels any pending debounce timer, and issues no fetch (the in-flight
set is untouched and no timer remains). -/
theorem c6_emptySubmitClears (m : Machine) (raw : Str) (h : trimStr raw = []) :
    (search m raw).state = initialState ∧
    (search m raw).timer = none ∧
    (search m raw).inflight = m.inflight := by
  simp [search, h, searchReducer]

/-- C6 witness: a whitespace-only submission against a machine with a
pending timer. -/
theorem c6_emptySubmitClears_witness :
    trimStr [' ', '\t'] = [] ∧
    (search { state := initialState, timer := some ['a'], inflight := [] }
      [' ', '\t']).state = initialState ∧
    (search { state := initialState, timer := some ['a'], inflight := [] }
      [' ', '\t']).timer = none ∧
    (search { state := initialState, timer := some ['a'], inflight := [] }
      [' ', '\t']).inflight = [] :=
  ⟨by decide,
    c6_emptySubmitClears
      { state := initialState, timer := some ['a'], inflight := [] }
      [' ', '\t'] (by decide)⟩

/-- C2: a burst of non-empty submissions issues no fetch while it
lasts, each submission replacing the pending timer, and the surviving
timer holds the trimmed text of the last submission; when the debounce
window then elapses, exactly one fetch goes out, for that text. -/
theorem c2_debounceLastWins (m : Machine) (raws : List Str) (lastRaw : Str)
    (_hall : ∀ r ∈ raws, trimStr r ≠ []) (hlast : trimStr lastRaw ≠ []) :
    ((raws ++ [lastRaw]).foldl search m).timer = some (trimStr lastRaw) ∧
    ((raws ++ [lastRaw]).foldl search m).inflight = m.inflight ∧
    (timerFire ((raws ++ [lastRaw]).foldl search m)).inflight =
      m.inflight ++ [trimStr lastRaw] ∧
    (timerFire ((raws ++ [lastRaw]).foldl search m)).timer = none := by
  have hfold : (raws ++ [lastRaw]).foldl search m =
      search (raws.foldl search m) lastRaw := by
    rw [List.foldl_append]
    rfl
  rw [hfold, search_pos _ _ hlast, foldl_search_inflight raws m]
  exact ⟨rfl, rfl, rfl, rfl⟩

/-- C2 witness: the burst "h", "hp" leaves one timer for "hp" and, when
it fires, exactly one fetch for "hp". -/
theorem c2_debounceLastWins_witness :
    ((([['h']] : List Str) ++ [['h', 'p']]).foldl search initMachine).timer =
      some ['h', 'p'] ∧
    ((([['h']] : List Str) ++ [['h', 'p']]).foldl search initMachine).inflight = [] ∧
    (timerFire ((([['h']] : List Str) ++ [['h', 'p']]).foldl search
      initMachine)).inflight = [['h', 'p']] ∧
    (timerFire ((([['h']] : List Str) ++ [['h', 'p']]).foldl search
      initMachine)).timer = none :=
  c2_debounceLastWins initMachine [['h']] ['h', 'p'] (by decide) (by decide)

/-- C9: the dropdown renders exactly when isOpen holds and the query
trims to a non-empty string; a query trimming to empty suppresses it
even with isOpen true. -/
theorem c9_dropdownVisibility (a : AppState) :
    (showDropdown a = true ↔
      a.isOpen = true ∧ 0 < (trimStr a.machine.state.query).length) ∧
    (trimStr a.machine.state.query = [] → showDropdown a = false) := by
  constructor
  · simp [showDropdown, Bool.and_eq_true, decide_eq_true_iff]
  · intro h
    simp [showDropdown, h]

/-- C9 witness: isOpen true with a whitespace-only query renders no
dropdown. -/
theorem c9_dropdownVisibility_witness :
    showDropdown
      { machine :=
          { state :=
              { status := Status.idle, query := [' '], results := [], error := none },
            timer := none, inflight := [] },
        isOpen := true, activeIndex := -1 } = false :=
  (c9_dropdownVisibility _).2 (by decide)

/-- C10: committing a selection calls `search` with the chosen title:
the dropdown closes at once, no fetch goes out yet, but a debounce
timer for the trimmed title is scheduled, and when it elapses a fresh
fetch for the trimmed title is issued. -/
theorem c10_selectionAutoFetches (a : AppState) (r : Result)
    (h : trimStr r.title ≠ []) :
    (handleSelect a r).isOpen = false ∧
    (handleSelect a r).activeIndex = -1 ∧
    (handleSelect a r).machine.timer = some (trimStr r.title) ∧
    (handleSelect a r).machine.inflight = a.machine.inflight ∧
    (timerFire (handleSelect a r).machine).inflight =
      a.machine.inflight ++ [trimStr r.title] ∧
    (timerFire (handleSelect a r).machine).state.status = Status.loading := by
  have hsearch := search_pos a.machine r.title h
  have hfire := timerFire_some (search a.machine r.title) (trimStr r.title)
    (by rw [hsearch])
  refine ⟨rfl, rfl, ?_, ?_, ?_, ?_⟩
  · show (search a.machine r.title).timer = some (trimStr r.title)
    rw [hsearch]
  · exact search_inflight a.machine r.title
  · show (timerFire (search a.machine r.title)).inflight =
      a.machine.inflight ++ [trimStr r.title]
    rw [hfire]
    exact congrArg (· ++ [trimStr r.title]) (search_inflight a.machine r.title)
  · show (timerFire (search a.machine r.title)).state.status = Status.loading
    rw [hfire]

/-- C10 witness: selecting the concrete record `r1` from the mounted
widget. -/
theorem c10_selectionAutoFetches_witness :
    (handleSelect initApp r1).isOpen = false ∧
    (handleSelect initApp r1).activeIndex = -1 ∧
    (handleSelect initApp r1).machine.timer = some ['T'] ∧
    (handleSelect initApp r1).machine.inflight = [] ∧
    (timerFire (handleSelect initApp r1).machine).inflight = [['T']] ∧
    (timerFire (handleSelect initApp r1).machine).state.status = Status.loading :=
  c10_selectionAutoFetches initApp r1 (by decide)

/-- One ArrowDown in the list leaves the machine untouched. -/
theorem listArrowDown_machine (a : AppState) :
    (listArrowDown a).machine = a.machine := rfl

/-- One ArrowUp in the list leaves the machine untouched. -/
theorem listArrowUp_machine (a : AppState) :
    (listArrowUp a).machine = a.machine := rfl

/-- Iterated ArrowDown leaves the machine untouched. -/
theorem iterate_down_machine :
    ∀ (n : Nat) (a : AppState), (listArrowDown^[n] a).machine = a.machine := by
  intro n
  induction n with
  | zero => intro a; rfl
  | succ k ih =>
      intro a
      rw [Function.iterate_succ_apply', listArrowDown_machine, ih]

/-- C7: list navigation is clamped: from any in-range start, any
positive number of ArrowDown steps never exceeds results.length - 1,
any positive number of ArrowUp steps never goes below 0, and a single
step in either direction lands inside [0, results.length - 1]. -/
theorem c7_clampedNavigation (a : AppState) (n : Nat) (hn : 1 ≤ n)
    (hlen : 1 ≤ (a.machine.state.results.length : Int))
    (hlo : -1 ≤ a.activeIndex)
    (hhi : a.activeIndex ≤ (a.machine.state.results.length : Int) - 1) :
    (listArrowDown^[n] a).activeIndex ≤
      (a.machine.state.results.length : Int) - 1 ∧
    0 ≤ (listArrowUp^[n] a).activeIndex ∧
    0 ≤ (listArrowDown a).activeIndex ∧
    (listArrowDown a).activeIndex ≤ (a.machine.state.results.length : Int) - 1 ∧
    0 ≤ (listArrowUp a).activeIndex ∧
    (listArrowUp a).activeIndex ≤ (a.machine.state.results.length : Int) - 1 := by
  obtain ⟨k, rfl⟩ : ∃ k, n = k + 1 := ⟨n - 1, (Nat.succ_pred_eq_of_pos hn).symm⟩
  refine ⟨?_, ?_, ?_, min_le_right _ _, le_max_right _ _, ?_⟩
  · rw [Function.iterate_succ_apply']
    have h1 : (listArrowDown (listArrowDown^[k] a)).activeIndex ≤
        (((listArrowDown^[k] a).machine.state.results.length : Int) - 1) :=
      min_le_right _ _
    rw [iterate_down_machine k a] at h1
    exact h1
  · rw [Function.iterate_succ_apply']
    exact le_max_right _ _
  · exact le_min (by omega) (by omega)
  · exact max_le (by omega) (by omega)

/-- A concrete navigation state: two results, activeIndex 0. -/
def navA : AppState :=
  { machine :=
      { state :=
          { status := Status.success, query := ['a'],
            results := [r1, r2], error := none },
        timer := none, inflight := [] },
    isOpen := true, activeIndex := 0 }

/-- C7 witness: three ArrowDown or ArrowUp steps from `navA` stay in
range, and single steps stay in [0, 1]. -/
theorem c7_clampedNavigation_witness :
    (listArrowDown^[3] navA).activeIndex ≤
      (navA.machine.state.results.length : Int) - 1 ∧
    0 ≤ (listArrowUp^[3] navA).activeIndex ∧
    0 ≤ (listArrowDown navA).activeIndex ∧
    (listArrowDown navA).activeIndex ≤
      (navA.machine.state.results.length : Int) - 1 ∧
    0 ≤ (listArrowUp navA).activeIndex ∧
    (listArrowUp navA).activeIndex ≤
      (navA.machine.state.results.length : Int) - 1 :=
  c7_clampedNavigation navA 3 (by decide) (by decide) (by decide) (by decide)

/-- What the source guarantees about every string handed to `fetchFn`:
it is the trimmed form of some submitted raw text, it is non-empty, and
it contains a non-whitespace character. -/
def fetchArgOk (q : Str) : Prop :=
  (∃ raw, q = trimStr raw) ∧ q ≠ [] ∧ ∃ c ∈ q, isWs c = false

/-- C8: on every reachable machine, the pending timer's captured query
and every in-flight fetch argument satisfy `fetchArgOk` — `fetchFn` is
only ever invoked with trimmed, non-empty, non-whitespace-only text —
while a non-empty submission stores the raw untrimmed text in the
`query` field. -/
theorem c8_fetchArgsTrimmed (m : Machine) (h : ReachableM m) :
    ((∀ q, m.timer = some q → fetchArgOk q) ∧
      ∀ q ∈ m.inflight, fetchArgOk q) ∧
    ∀ raw, trimStr raw ≠ [] → (search m raw).state.query = raw := by
  refine ⟨?_, fun raw hr => by rw [search_pos _ _ hr]⟩
  induction h with
  | init =>
      exact ⟨fun q hq => by simp [initMachine] at hq,
        fun q hq => by simp [initMachine] at hq⟩
  | submit m raw _ ih =>
      by_cases htr : trimStr raw = []
      · have ht : (search m raw).timer = none := by simp [search, htr]
        have hi : (search m raw).inflight = m.inflight := search_inflight m raw
        constructor
        · intro q hq
          rw [ht] at hq
          exact Option.noConfusion hq
        · intro q hq
          rw [hi] at hq
          exact ih.2 q hq
      · rw [search_pos _ _ htr]
        constructor
        · intro q hq
          simp only [Option.some.injEq] at hq
          subst hq
          exact ⟨⟨raw, rfl⟩, htr, trimStr_has_solid raw htr⟩
        · intro q hq
          exact ih.2 q hq
  | clearStep m _ ih =>
      exact ⟨fun q hq => Option.noConfusion hq, fun q hq => ih.2 q hq⟩
  | fire m _ ih =>
      cases htm : m.timer with
      | none =>
          rw [show timerFire m = m from by unfold timerFire; rw [htm]]
          exact ih
      | some q0 =>
          rw [timerFire_some m q0 htm]
          constructor
          · intro q hq
            exact Option.noConfusion hq
          · intro q hq
            simp only [List.mem_append, List.mem_singleton] at hq
            rcases hq with hq | hq
            · exact ih.2 q hq
            · subst hq
              exact ih.1 q htm
  | resSuccess m i p _ ih =>
      unfold resolveSuccess
      split
      · exact ⟨fun q hq => ih.1 q hq,
          fun q hq => ih.2 q (List.eraseIdx_subset m.inflight i hq)⟩
      · exact ih
  | resError m i msg _ ih =>
      unfold resolveError
      split
      · exact ⟨fun q hq => ih.1 q hq,
          fun q hq => ih.2 q (List.eraseIdx_subset m.inflight i hq)⟩
      · exact ih

/-- C8 witness: on the reachable machine obtained by submitting "a" and
letting the timer fire, the in-flight argument "a" satisfies
`fetchArgOk`, and the query field holds the raw text. -/
theorem c8_fetchArgsTrimmed_witness :
    fetchArgOk ['a'] ∧ (search initMachine ['a']).state.query = ['a'] :=
  ⟨(c8_fetchArgsTrimmed (timerFire (search initMachine ['a']))
      (ReachableM.fire _ (ReachableM.submit _ ['a'] ReachableM.init))).1.2
      ['a'] (by decide),
    (c8_fetchArgsTrimmed initMachine ReachableM.init).2 ['a'] (by decide)⟩

/-- C5 amended: on every reachable machine, an idle or errored state
has empty results; results can also be non-empty while loading (prior
results are retained by FETCH_START); error is set only when status is
error or — after a stale resolution — success.  Stated as: non-empty
results imply status success or loading, and a set error implies status
error or success. -/
theorem c5_amendedInvariant (m : Machine) (h : ReachableM m) :
    (m.state.results ≠ [] →
      m.state.status = Status.success ∨ m.state.status = Status.loading) ∧
    (m.state.error ≠ none →
      m.state.status = Status.error ∨ m.state.status = Status.success) := by
  induction h with
  | init => exact ⟨fun hc => absurd rfl hc, fun hc => absurd rfl hc⟩
  | submit m raw _ ih =>
      by_cases htr : trimStr raw = []
      · constructor <;> simp [search, htr, searchReducer, initialState]
      · rw [search_pos _ _ htr]
        exact ih
  | clearStep m _ ih =>
      constructor <;> simp [clear, searchReducer, initialState]
  | fire m _ ih =>
      cases htm : m.timer with
      | none =>
          rw [show timerFire m = m from by unfold timerFire; rw [htm]]
          exact ih
      | some q0 =>
          rw [timerFire_some m q0 htm]
          exact ⟨fun _ => Or.inr rfl, fun hc => absurd rfl hc⟩
  | resSuccess m i p _ ih =>
      unfold resolveSuccess
      split
      · exact ⟨fun _ => Or.inl rfl, fun _ => Or.inr rfl⟩
      · exact ih
  | resError m i msg _ ih =>
      unfold resolveError
      split
      · exact ⟨fun hc => absurd rfl hc, fun _ => Or.inl rfl⟩
      · exact ih

/-- C5 amended witness: a reachable machine whose fetch rejected has a
set error, and the invariant places its status in {error, success}. -/
theorem c5_amendedInvariant_witness :
    (resolveError (timerFire (search initMachine ['a'])) 0 ['x']).state.status =
      Status.error ∨
    (resolveError (timerFire (search initMachine ['a'])) 0 ['x']).state.status =
      Status.success :=
  (c5_amendedInvariant _
    (ReachableM.resError _ 0 ['x']
      (ReachableM.fire _ (ReachableM.submit _ ['a'] ReachableM.init)))).2
    (by decide)

end LiveSearch
